import Mathlib

/-!
Verification development for the `brandchallenger2` front-end (`src/App.tsx`).

The file embeds, as executable Lean definitions, the pure decision logic of
the root `App` component: the chat-history webhook response normalization,
`validateForm`, `handleSubmit`, `handleLoadAllHistory`,
`handleLoadN8NHistory`, and the retrieve-chat-history click handler.
Network calls, the `JSON.parse` of a response body, and the message-loading
hook functions are modelled as explicit inputs (oracles); everything the
component itself computes is translated directly from the source.
-/

namespace BrandChallenger

/-- JavaScript `Date` values are modelled opaquely by a single string.  Both
renderings used by the source (`toISOString`, `toLocaleDateString`) return
this string; no claim depends on date formatting. -/
structure JsDate where
  repr : String
deriving DecidableEq, Repr

def JsDate.toISOString (d : JsDate) : String := d.repr

def JsDate.toLocaleDateString (d : JsDate) : String := d.repr

/-- Model of a JavaScript runtime value as produced and consumed by the
handlers in `App.tsx`: JSON values (from `JSON.parse`) plus `undefined` and
`Date` objects (which appear in the object literals the component builds).
Numbers are modelled as integers; no claim depends on fractional values. -/
inductive Json where
  | null
  | undefined
  | bool (b : Bool)
  | num (n : Int)
  | str (s : String)
  | date (d : JsDate)
  | arr (elems : List Json)
  | obj (fields : List (String × Json))
deriving Repr

/-- JavaScript truthiness of a value (`if (v)`, `v || w`).  `null`,
`undefined`, `false`, `0` and the empty string are falsy; arrays and
objects (including the empty ones) are truthy. -/
def Json.truthy : Json → Bool
  | .null => false
  | .undefined => false
  | .bool b => b
  | .num n => n != 0
  | .str s => s ≠ ""
  | .date _ => true
  | .arr _ => true
  | .obj _ => true

/-- Property access `o.name` on an object, as an `Option` (absent key =
`undefined`).  `JSON.parse` keeps the last of duplicate keys, so the last
binding wins. -/
def Json.getField (fields : List (String × Json)) (name : String) : Option Json :=
  ((fields.filter (fun p => p.1 = name)).getLast?).map Prod.snd

/-- Whether the object has the given key at all (`"name" in o`). -/
def Json.hasField (j : Json) (name : String) : Bool :=
  match j with
  | .obj fields => fields.any (fun p => p.1 = name)
  | _ => false

/-- Truthiness of `o.name` (absent key is `undefined`, hence falsy). -/
def Json.truthyField (fields : List (String × Json)) (name : String) : Bool :=
  match Json.getField fields name with
  | some v => v.truthy
  | none => false

/-! ### JavaScript string primitives used by `App.tsx` -/

/-- The JavaScript `\s` / `String.prototype.trim` whitespace set. -/
def isJsWs (c : Char) : Bool :=
  c = ' ' || c = '\t' || c = '\n' || c = '\r' ||
  c.val = 0x0b || c.val = 0x0c || c.val = 0xa0 || c.val = 0x1680 ||
  (0x2000 ≤ c.val && c.val ≤ 0x200a) ||
  c.val = 0x2028 || c.val = 0x2029 || c.val = 0x202f ||
  c.val = 0x205f || c.val = 0x3000 || c.val = 0xfeff

/-- JavaScript `s.trim()`: strip leading and trailing whitespace. -/
def jsTrim (s : String) : String :=
  ⟨((s.data.dropWhile isJsWs).reverse.dropWhile isJsWs).reverse⟩

/-- JavaScript `a || b` on strings: `a` when non-empty (truthy), else `b`. -/
def jsOrS (a b : String) : String :=
  if a = "" then b else a

/-- `chars` contains neither whitespace nor `@` (the character class
`[^\s@]` of the validation regex). -/
def noWsAt (chars : List Char) : Bool :=
  chars.all (fun c => !isJsWs c && c ≠ '@')

/-- The domain part has a dot that is neither its first nor its last
character (so `B.C` with `B`, `C` non-empty). -/
def hasInternalDot (chars : List Char) : Bool :=
  ((chars.drop 1).dropLast).contains '.'

/-- Split a character list at every occurrence of `sep` (the pieces keep
their order; `n` separators yield `n + 1` pieces). -/
def splitOnChar (sep : Char) : List Char → List (List Char)
  | [] => [[]]
  | c :: rest =>
    match splitOnChar sep rest with
    | [] => [[c]]
    | h :: t => if c = sep then [] :: h :: t else (c :: h) :: t

/-- The test `/^[^\s@]+@[^\s@]+\.[^\s@]+$/.test s` of `validateForm`:
the string is `A@B.C` with `A`, `B`, `C` non-empty and free of whitespace
and `@` (so: exactly one `@`, a non-empty local part, and a domain part
with an internal dot). -/
def emailRegexTest (s : String) : Bool :=
  match splitOnChar '@' s.data with
  | [lpart, dpart] =>
    lpart ≠ [] && noWsAt lpart && dpart ≠ [] && noWsAt dpart &&
      hasInternalDot dpart
  | _ => false

/-! ### Chat-history webhook response normalization
(the `onClick` handler of the Retrieve Chat History button) -/

/-- Result of `JSON.parse(responseText)` in the retrieve-history handler:
either a parsed JSON value, or the raw body text when parsing threw. -/
inductive ParsedBody where
  | json (j : Json)
  | text (raw : String)

/-- The `||` chain
`parsedResult.messages || parsedResult.data || ... || []`:
value of the first listed field that is present and truthy, else `[]`. -/
def firstTruthyField (fields : List (String × Json)) : List String → Json
  | [] => .arr []
  | name :: names =>
    match Json.getField fields name with
    | some v => if v.truthy then v else firstTruthyField fields names
    | none => firstTruthyField fields names

/-- JavaScript `v.length === 0`: true for the empty array, the empty
string, and an object whose `length` property is the number `0` (strict
equality, so a string-valued `length` does not count; on every other
value `.length` is `undefined` and the strict comparison is false). -/
def jsLenZero : Json → Bool
  | .arr l => l.isEmpty
  | .str s => s = ""
  | .obj fields =>
    match Json.getField fields "length" with
    | some (.num n) => n = 0
    | _ => false
  | _ => false

/-- The field names probed by the handler, in source order. -/
def messageFieldNames : List String :=
  ["messages", "data", "history", "chat_history", "conversations", "items"]

/-- Message extraction from a parsed JSON value (lines 355–371 of
`App.tsx`): an array is taken as is; on a non-null object the six named
fields are probed with `||`, and if the result is empty while
`content`/`message`/`text` is truthy the object itself becomes the single
message; any other value (null or a primitive) leaves `messages = []`. -/
def extractFromJson : Json → Json
  | .arr a => .arr a
  | .obj fields =>
    let msgs := firstTruthyField fields messageFieldNames
    if jsLenZero msgs &&
        (Json.truthyField fields "content" || Json.truthyField fields "message" ||
          Json.truthyField fields "text") then
      .arr [.obj fields]
    else
      msgs
  | _ => .arr []

/-- The whole normalization of an OK response body (lines 344–382 of
`App.tsx`).  `ts` is the ISO string of the `new Date()` taken in the
non-JSON branch.  When the body is not JSON and its trimmed text is
non-empty, a single bot message is produced. -/
def normalizeWebhookBody (body : ParsedBody) (ts : String) : Json :=
  match body with
  | .json j => extractFromJson j
  | .text raw =>
    if jsTrim raw ≠ "" then
      .arr [.obj [("content", .str (jsTrim raw)), ("sender", .str "bot"),
                  ("timestamp", .str ts)]]
    else
      .arr []

/-- Whether a value is literally the empty array (the "that list is
empty" test of claim C1). -/
def Json.isEmptyArr : Json → Bool
  | .arr [] => true
  | _ => false

/-- Whether a value is an object whose `length` property equals the
number `0` (the other way, besides being the empty array, in which a
truthy JSON value passes the code's `messages.length === 0` test). -/
def Json.lengthPropZero : Json → Bool
  | .obj fields =>
    match Json.getField fields "length" with
    | some (.num n) => n = 0
    | _ => false
  | _ => false

/-- C1's algorithm read literally: the message list is the value of the
*first present* of the six fields (present even with a falsy value), and
the object-wrapping step fires when the object *has* a
`content`/`message`/`text` key (again regardless of its value). -/
def firstPresentField (fields : List (String × Json)) : List String → Json
  | [] => .arr []
  | name :: names =>
    match Json.getField fields name with
    | some v => v
    | none => firstPresentField fields names

/-- Normalization as claim C1 states it (differs from the source in
reading "present" where the code tests truthiness). -/
def normalizeSpecOrig (body : ParsedBody) (ts : String) : Json :=
  match body with
  | .json (.arr a) => .arr a
  | .json (.obj fields) =>
    let msgs := firstPresentField fields messageFieldNames
    if msgs.isEmptyArr &&
        (Json.hasField (.obj fields) "content" || Json.hasField (.obj fields) "message" ||
          Json.hasField (.obj fields) "text") then
      .arr [.obj fields]
    else
      msgs
  | .json _ => .arr []
  | .text raw =>
    if jsTrim raw ≠ "" then
      .arr [.obj [("content", .str (jsTrim raw)), ("sender", .str "bot"),
                  ("timestamp", .str ts)]]
    else
      .arr []

/-- Normalization as amended claim C1 states it: same algorithm, but the
six fields are probed for the first *truthy* value (null, false, 0 and ""
are skipped), and the object-wrapping step requires the extracted value to
have JavaScript length zero — the empty array, or an object whose
`length` property equals the number `0` — and one of
`content`/`message`/`text` to be truthy. -/
def normalizeSpecAmended (body : ParsedBody) (ts : String) : Json :=
  match body with
  | .json (.arr a) => .arr a
  | .json (.obj fields) =>
    let msgs :=
      (((messageFieldNames.filterMap (Json.getField fields)).filter
        Json.truthy).head?).getD (.arr [])
    if (msgs.isEmptyArr || msgs.lengthPropZero) &&
        (Json.truthyField fields "content" || Json.truthyField fields "message" ||
          Json.truthyField fields "text") then
      .arr [.obj fields]
    else
      msgs
  | .json _ => .arr []
  | .text raw =>
    if jsTrim raw ≠ "" then
      .arr [.obj [("content", .str (jsTrim raw)), ("sender", .str "bot"),
                  ("timestamp", .str ts)]]
    else
      .arr []

/-! ### Data model: user, selected file, upload form state -/

/-- The logged-in user's profile, as consumed by `App.tsx`
(`user.firstName`, `user.lastName`, `user.brandName`, `user.email`,
`user.id`). -/
structure User where
  id : String
  firstName : String
  lastName : String
  brandName : String
  email : String
deriving DecidableEq, Repr

/-- A selected `File` as consumed by `validateForm`/`handleSubmit`:
its name, MIME type string, and byte size. -/
structure FileData where
  name : String
  mime : String
  size : Nat
deriving DecidableEq, Repr

/-- The `FormData` state record of the component. -/
structure FormState where
  firstName : String
  lastName : String
  brandName : String
  email : String
  file : Option FileData
deriving DecidableEq, Repr

/-- The `FormErrors` record: one optional message per field. -/
structure FormErrors where
  firstName : Option String
  lastName : Option String
  brandName : Option String
  email : Option String
  file : Option String
deriving DecidableEq, Repr

/-- `user?.field || formData.field` for a text field: the user's value
when a user is present and the value is non-empty, else the form value. -/
def effectiveField (u : Option User) (sel : User → String) (formVal : String) : String :=
  match u with
  | some usr => jsOrS (sel usr) formVal
  | none => formVal

/-! ### `validateForm` (lines 121–157 of `App.tsx`) -/

/-- `validateForm`, returning the `newErrors` record it builds.  The
boolean return of the source is `Object.keys(newErrors).length === 0`,
i.e. `formErrorsEmpty` below. -/
def validateForm (u : Option User) (fd : FormState) : FormErrors :=
  let firstName := effectiveField u User.firstName fd.firstName
  let lastName := effectiveField u User.lastName fd.lastName
  let brandName := effectiveField u User.brandName fd.brandName
  let email := effectiveField u User.email fd.email
  { firstName :=
      if jsTrim firstName = "" then some "First name is required" else none
    lastName :=
      if jsTrim lastName = "" then some "Last name is required" else none
    brandName :=
      if jsTrim brandName = "" then some "Brand name is required" else none
    email :=
      if jsTrim email = "" then some "Email is required"
      else if !emailRegexTest email then some "Please enter a valid email address"
      else none
    file :=
      match fd.file with
      | none => some "Please select a PDF file"
      | some f =>
        if f.mime ≠ "application/pdf" then some "Only PDF files are allowed"
        else if f.size > 10 * 1024 * 1024 then some "File size must be less than 10MB"
        else none }

/-- `Object.keys(newErrors).length === 0`: no field carries a message. -/
def formErrorsEmpty (e : FormErrors) : Bool :=
  e.firstName.isNone && e.lastName.isNone && e.brandName.isNone &&
    e.email.isNone && e.file.isNone

/-- The boolean result of `validateForm`. -/
def validateFormOk (u : Option User) (fd : FormState) : Bool :=
  formErrorsEmpty (validateForm u fd)

/-! ### HTTP requests issued by the component -/

/-- A value appended to a `FormData` request body: a string or a file. -/
inductive FormVal where
  | str (s : String)
  | file (f : FileData)
deriving DecidableEq, Repr

/-- A request body: JSON (retrieve-history webhook) or multipart form
data (document upload). -/
inductive RequestBody where
  | jsonBody (j : Json)
  | formBody (entries : List (String × FormVal))

/-- An HTTP request as issued by `fetch` in `App.tsx`. -/
structure Request where
  url : String
  method : String
  body : RequestBody

/-- First entry appended under `name` (what `FormData.get` would see). -/
def lookupEntry (entries : List (String × FormVal)) (name : String) : Option FormVal :=
  (entries.find? (fun p => p.1 = name)).map Prod.snd

/-! ### `handleSubmit` (lines 177–242 of `App.tsx`) -/

/-- The `submitStatus` state. -/
inductive SubmitStatus where
  | idle
  | success
  | error
deriving DecidableEq, Repr

/-- Outcome of the single upload `fetch`: an OK response, a non-OK
response (with status code, body text and status text), or a thrown
error (`some msg` for an `Error` with a message, `none` otherwise). -/
inductive FetchOutcome where
  | ok
  | notOk (status : Nat) (bodyText : String) (statusText : String)
  | threw (err : Option String)
deriving DecidableEq, Repr

/-- `error instanceof Error ? error.message : 'Unknown error'`. -/
def errText : Option String → String
  | some m => m
  | none => "Unknown error"

/-- The `console.log('Upload data', ...)` record built before the fetch. -/
structure UploadLog where
  firstName : String
  lastName : String
  brandName : String
  email : String
  userId : String
  fileName : String
  fileSize : Nat
deriving DecidableEq, Repr

/-- The entries appended to `formDataToSend`, in source order
(lines 186–194).  Note `userId` is appended as `user?.email ||
formData.email`. -/
def uploadFormEntries (u : Option User) (fd : FormState) (f : FileData) :
    List (String × FormVal) :=
  [("firstName", .str (effectiveField u User.firstName fd.firstName)),
   ("lastName", .str (effectiveField u User.lastName fd.lastName)),
   ("brandName", .str (effectiveField u User.brandName fd.brandName)),
   ("email", .str (effectiveField u User.email fd.email)),
   ("userId", .str (effectiveField u User.email fd.email)),
   ("userName", .str
     (match u with
      | some usr => usr.firstName ++ " " ++ usr.lastName
      | none => fd.firstName ++ " " ++ fd.lastName)),
   ("userBrandName", .str (effectiveField u User.brandName fd.brandName)),
   ("data", .file f)]

/-- The debug-log record (lines 197–205): its `userId` is
`user?.id || userId` (the random fallback id state), unlike the request
body. -/
def uploadDebugLog (u : Option User) (fd : FormState) (uidFallback : String)
    (f : FileData) : UploadLog :=
  { firstName := effectiveField u User.firstName fd.firstName
    lastName := effectiveField u User.lastName fd.lastName
    brandName := effectiveField u User.brandName fd.brandName
    email := effectiveField u User.email fd.email
    userId :=
      match u with
      | some usr => jsOrS usr.id uidFallback
      | none => uidFallback
    fileName := f.name
    fileSize := f.size }

/-- The fixed upload endpoint passed to `fetch` (line 207). -/
def uploadUrl : String := "/api/webhook-test/document-upload"

/-- The success banner text (line 214). -/
def uploadSuccessMessage : String :=
  "🎉 Document uploaded successfully! Your file has been processed and is ready for analysis."

/-- The error banner text (line 238), wrapping the caught error's
message. -/
def uploadErrorMessage (m : String) : String :=
  "❌ Failed to upload document: " ++ m ++ ". Please try again."

/-- The message of the `Error` thrown on a non-OK response (line 233). -/
def uploadFailedMessage (status : Nat) (bodyText : String) (statusText : String) :
    String :=
  "Upload failed (" ++ toString status ++ "): " ++ jsOrS bodyText statusText

/-- The empty form state `handleSubmit` resets to on success
(lines 215–221). -/
def emptyFormState : FormState :=
  { firstName := "", lastName := "", brandName := "", email := "", file := none }

/-- The component state affected by the 3-second `setTimeout` callback of
the success path (lines 226–230). -/
structure ModalState where
  showUploadForm : Bool
  submitStatus : SubmitStatus
  submitMessage : String
deriving DecidableEq, Repr

/-- The `setTimeout` callback: close the modal and reset status and
message (it ignores the current state). -/
def uploadSuccessTimeout (_s : ModalState) : ModalState :=
  { showUploadForm := false, submitStatus := .idle, submitMessage := "" }

/-- Everything observable about one run of `handleSubmit`: the requests
issued, the errors record set by `validateForm`, the final
`submitStatus`/`submitMessage`/`formData`/`isSubmitting` state, the
scheduled timeout delay (if any), and the debug log (if emitted). -/
structure SubmitResult where
  requests : List Request
  errors : FormErrors
  submitStatus : SubmitStatus
  submitMessage : String
  formData : FormState
  isSubmitting : Bool
  timeoutMs : Option Nat
  log : Option UploadLog

/-- `handleSubmit`.  `status0`/`msg0`/`isSub0` are the pre-call values of
the corresponding state (left untouched by the early validation-failure
return); `outcome` is the behaviour of the single `fetch`.  The
`(file = none, validation ok)` case is unreachable (validation requires a
file); it is mapped to the early-return result. -/
def handleSubmit (u : Option User) (fd : FormState) (uidFallback : String)
    (outcome : FetchOutcome) (status0 : SubmitStatus) (msg0 : String)
    (isSub0 : Bool) : SubmitResult :=
  match fd.file, validateFormOk u fd with
  | some f, true =>
    let req : Request :=
      { url := uploadUrl, method := "POST", body := .formBody (uploadFormEntries u fd f) }
    let logRec := uploadDebugLog u fd uidFallback f
    match outcome with
    | .ok =>
      { requests := [req], errors := validateForm u fd, submitStatus := .success
        submitMessage := uploadSuccessMessage, formData := emptyFormState
        isSubmitting := false, timeoutMs := some 3000, log := some logRec }
    | .notOk status bodyText statusText =>
      { requests := [req], errors := validateForm u fd, submitStatus := .error
        submitMessage := uploadErrorMessage (uploadFailedMessage status bodyText statusText)
        formData := fd, isSubmitting := false, timeoutMs := none, log := some logRec }
    | .threw e =>
      { requests := [req], errors := validateForm u fd, submitStatus := .error
        submitMessage := uploadErrorMessage (errText e), formData := fd
        isSubmitting := false, timeoutMs := none, log := some logRec }
  | _, _ =>
    { requests := [], errors := validateForm u fd, submitStatus := status0
      submitMessage := msg0, formData := fd, isSubmitting := isSub0
      timeoutMs := none, log := none }

/-! ### History loaders (lines 68–119 of `App.tsx`) -/

/-- A chat message as returned by the history hooks
(`useChatHistory`/`useN8NChatHistory`): the handlers read `id`,
`content`, `sender`, `timestamp` and `attachments` (lines 87–93 and
108–114).  The attachment payload is opaque to `App.tsx` and modelled by
a string. -/
structure ChatMsg where
  id : String
  content : String
  sender : String
  timestamp : JsDate
  attachments : Option String
deriving DecidableEq, Repr

/-- A conversation summary from `useChatHistory`: the component reads
`id`, `title`, `createdAt`, `updatedAt` and `messageCount`. -/
structure Conv where
  id : String
  title : String
  createdAt : JsDate
  updatedAt : JsDate
  messageCount : Nat
deriving DecidableEq, Repr

/-- The `attachments` value as it appears in the rebuilt message object:
the hook message's payload, or `undefined`. -/
def attJson : Option String → Json
  | some s => .str s
  | none => .undefined

/-- The conversation-separator object pushed by `handleLoadAllHistory`
(lines 79–84). -/
def sepMsg (c : Conv) : Json :=
  .obj [("id", .str ("separator-" ++ c.id)),
        ("content", .str ("--- " ++ c.title ++ " (" ++ c.createdAt.toLocaleDateString ++ ") ---")),
        ("sender", .str "bot"),
        ("timestamp", .date c.createdAt)]

/-- The per-message object pushed by `handleLoadAllHistory`
(lines 87–93): the hook message with a `history-`-prefixed id. -/
def histMsg (m : ChatMsg) : Json :=
  .obj [("id", .str ("history-" ++ m.id)),
        ("content", .str m.content),
        ("sender", .str m.sender),
        ("timestamp", .date m.timestamp),
        ("attachments", attJson m.attachments)]

/-- The per-message object returned by `handleLoadN8NHistory`
(lines 108–114): same fields, id kept as is. -/
def n8nOutMsg (m : ChatMsg) : Json :=
  .obj [("id", .str m.id),
        ("content", .str m.content),
        ("sender", .str m.sender),
        ("timestamp", .date m.timestamp),
        ("attachments", attJson m.attachments)]

/-- The `for (const conversation of conversations)` loop of
`handleLoadAllHistory`: `load` is `loadConversationMessages` (an oracle;
`.error` models a rejected promise, which aborts the loop).  A separator
is pushed exactly when the accumulated list is non-empty. -/
def loadAllAux (load : String → Except String (List ChatMsg)) :
    List Json → List Conv → Except String (List Json)
  | acc, [] => .ok acc
  | acc, c :: rest =>
    match load c.id with
    | .error e => .error e
    | .ok msgs =>
      loadAllAux load
        (acc ++ (if 0 < acc.length then [sepMsg c] else []) ++ msgs.map histMsg)
        rest

/-- `handleLoadAllHistory`: empty list when there is no user or the
session is unauthenticated; empty list when any awaited load throws. -/
def handleLoadAllHistory (u : Option User) (isAuth : Bool) (convs : List Conv)
    (load : String → Except String (List ChatMsg)) : List Json :=
  if u.isNone || !isAuth then []
  else
    match loadAllAux load [] convs with
    | .ok l => l
    | .error _ => []

/-- Number of `loadConversationMessages` calls awaited by one run of the
loop body (the loop stops at the first rejection). -/
def loadCallCount (load : String → Except String (List ChatMsg)) : List Conv → Nat
  | [] => 0
  | c :: rest =>
    match load c.id with
    | .error _ => 1
    | .ok _ => 1 + loadCallCount load rest

/-- Number of history requests issued by `handleLoadAllHistory`. -/
def handleLoadAllHistoryCalls (u : Option User) (isAuth : Bool)
    (convs : List Conv) (load : String → Except String (List ChatMsg)) : Nat :=
  if u.isNone || !isAuth then 0 else loadCallCount load convs

/-- `handleLoadN8NHistory`: guard, one awaited `loadN8NChatHistory` call
(`res` is its outcome), mapping each message to the five-field shape. -/
def handleLoadN8NHistory (u : Option User) (isAuth : Bool)
    (res : Except String (List ChatMsg)) : List Json :=
  if u.isNone || !isAuth then []
  else
    match res with
    | .ok msgs => msgs.map n8nOutMsg
    | .error _ => []

/-- Number of history requests issued by `handleLoadN8NHistory`. -/
def handleLoadN8NHistoryCalls (u : Option User) (isAuth : Bool) : Nat :=
  if u.isNone || !isAuth then 0 else 1

/-! ### The Retrieve Chat History click handler (lines 327–418) -/

/-- Outcome of the retrieve-history `fetch`: an OK response with a body
(already split into parsed-JSON-or-text), a non-OK response, or a thrown
error. -/
inductive RetrieveOutcome where
  | ok (body : ParsedBody)
  | notOk (status : Nat) (statusText : String)
  | threw (err : Option String)

/-- The fixed retrieve-history webhook endpoint (line 330). -/
def retrieveHistoryUrl : String :=
  "https://iamfashion.app.n8n.cloud/webhook/511abe15-0332-4bf8-9ed7-bc718465191c"

/-- The single POST issued by a retrieve-history click (lines 330–340).
The button is rendered only in the authenticated branch, so `u` is the
logged-in user; `now` is the `new Date()` of the request body. -/
def retrieveHistoryRequest (u : User) (now : JsDate) : Request :=
  { url := retrieveHistoryUrl, method := "POST"
    body := .jsonBody (.obj [("userId", .str u.id), ("email", .str u.email),
                             ("timestamp", .str now.toISOString)]) }

/-- The whole click handler: the request it issues and the
`loadWebhookHistory` event detail it dispatches to the chat component.
`respNow` is the `new Date()` taken while handling the response. -/
def retrieveHistoryClick (u : User) (now : JsDate) (respNow : JsDate)
    (outcome : RetrieveOutcome) : List Request × Json :=
  ([retrieveHistoryRequest u now],
   match outcome with
   | .ok body => normalizeWebhookBody body respNow.toISOString
   | .notOk status statusText =>
     .arr [.obj [("content", .str ("Failed to retrieve chat history: " ++
                    toString status ++ " " ++ statusText)),
                 ("sender", .str "bot"),
                 ("timestamp", .str respNow.toISOString)]]
   | .threw e =>
     .arr [.obj [("content", .str ("Error retrieving chat history: " ++ errText e)),
                 ("sender", .str "bot"),
                 ("timestamp", .str respNow.toISOString)]])

/-! ### Derived definitions used by the statements and proofs -/

/-- The output of `handleLoadAllHistory`'s loop as a function of the
"accumulated list already non-empty" flag `b`: each conversation emits an
optional separator (when the flag is set) followed by its mapped
messages, and the flag is raised as soon as some conversation contributed
a message. -/
def emitAll (msOf : Conv → List ChatMsg) : Bool → List Conv → List Json
  | _, [] => []
  | b, c :: rest =>
    (if b then [sepMsg c] else []) ++ (msOf c).map histMsg ++
      emitAll msOf (b || decide (0 < (msOf c).length)) rest

/-- A message object carrying the four mandatory chat-message fields
(identifier, text content, sender tag, timestamp). -/
def msgWellFormed (j : Json) : Bool :=
  j.hasField "id" && j.hasField "content" && j.hasField "sender" &&
    j.hasField "timestamp"

/-- Counterexample object for claim C1: the `messages` key is present
but `null` (falsy), while `data` holds a message. -/
def c1CexFields : List (String × Json) :=
  [("messages", .null), ("data", .arr [.obj [("content", .str "hi")]])]

/-! ### Helper lemmas -/

lemma ne_empty_of_jsTrim_ne_empty {s : String} (h : jsTrim s ≠ "") : s ≠ "" := by
  intro hs
  exact h (by rw [hs]; rfl)

lemma mem_jsTrim_data {s : String} {c : Char} (hc : c ∈ s.data)
    (hw : isJsWs c = false) : c ∈ (jsTrim s).data := by
  have step : ∀ (l : List Char), c ∈ l → c ∈ l.dropWhile isJsWs := by
    intro l hl
    have hsplit : l.takeWhile isJsWs ++ l.dropWhile isJsWs = l :=
      List.takeWhile_append_dropWhile isJsWs l
    rw [← hsplit] at hl
    rcases List.mem_append.1 hl with h1 | h2
    · exact absurd (List.mem_takeWhile_imp h1) (by simp [hw])
    · exact h2
  have h1 : c ∈ s.data.dropWhile isJsWs := step _ hc
  have h2 : c ∈ (s.data.dropWhile isJsWs).reverse.dropWhile isJsWs :=
    step _ (List.mem_reverse.2 h1)
  simpa [jsTrim] using List.mem_reverse.2 h2

lemma jsTrim_ne_empty_of_mem {s : String} {c : Char} (hc : c ∈ s.data)
    (hw : isJsWs c = false) : jsTrim s ≠ "" := by
  intro h
  have := mem_jsTrim_data hc hw
  rw [h] at this
  simp at this

lemma splitOnChar_sep_mem {sep : Char} :
    ∀ {l : List Char} {a b : List Char} {t : List (List Char)},
      splitOnChar sep l = a :: b :: t → sep ∈ l := by
  intro l
  induction l with
  | nil => intro a b t h; simp [splitOnChar] at h
  | cons c rest ih =>
    intro a b t h
    rcases hsp : splitOnChar sep rest with _ | ⟨hh, tt⟩
    · simp only [splitOnChar, hsp] at h
      simp at h
    · simp only [splitOnChar, hsp] at h
      by_cases hcs : c = sep
      · simp [hcs]
      · rw [if_neg hcs] at h
        injection h with _ h2
        exact List.mem_cons_of_mem _ (ih (by rw [hsp, h2]))

lemma emailRegexTest_at_mem {s : String} (h : emailRegexTest s = true) :
    '@' ∈ s.data := by
  unfold emailRegexTest at h
  rcases hsp : splitOnChar '@' s.data with _ | ⟨a, _ | ⟨b, _ | _⟩⟩ <;>
    rw [hsp] at h <;> first
      | exact splitOnChar_sep_mem hsp
      | simp at h

lemma emailRegexTest_jsTrim_ne {s : String} (h : emailRegexTest s = true) :
    jsTrim s ≠ "" :=
  jsTrim_ne_empty_of_mem (emailRegexTest_at_mem h) (by decide)

lemma emailRegexTest_ne_empty {s : String} (h : emailRegexTest s = true) :
    s ≠ "" := by
  intro hs
  have := emailRegexTest_at_mem h
  rw [hs] at this
  simp at this

lemma effectiveField_of_user {usr : User} {sel : User → String} {v : String}
    (h : sel usr ≠ "") : effectiveField (some usr) sel v = sel usr := by
  simp [effectiveField, jsOrS, h]

lemma validateFormOk_file_isSome {u : Option User} {fd : FormState}
    (h : validateFormOk u fd = true) : fd.file.isSome := by
  cases hf : fd.file with
  | none =>
    exfalso
    simp only [validateFormOk, formErrorsEmpty, validateForm, hf] at h
    simp at h
  | some f => rfl

lemma firstTruthyField_eq_chain (fields : List (String × Json)) :
    ∀ names : List String,
      firstTruthyField fields names =
        (((names.filterMap (Json.getField fields)).filter Json.truthy).head?).getD
          (.arr []) := by
  intro names
  induction names with
  | nil => rfl
  | cons n ns ih =>
    simp only [firstTruthyField, List.filterMap_cons]
    cases hg : Json.getField fields n with
    | none => simpa using ih
    | some v =>
      cases ht : v.truthy with
      | false => simpa [List.filter_cons, ht] using ih
      | true => simp [List.filter_cons, ht]

lemma firstTruthyField_truthy_or_default (fields : List (String × Json)) :
    ∀ names : List String,
      (firstTruthyField fields names).truthy = true ∨
        firstTruthyField fields names = .arr [] := by
  intro names
  induction names with
  | nil => exact Or.inr rfl
  | cons n ns ih =>
    simp only [firstTruthyField]
    cases hg : Json.getField fields n with
    | none => exact ih
    | some v =>
      cases ht : v.truthy with
      | false => simpa [ht] using ih
      | true => simp [ht]

lemma jsLenZero_eq_spec {v : Json}
    (h : v.truthy = true ∨ v = .arr []) :
    jsLenZero v = (v.isEmptyArr || v.lengthPropZero) := by
  rcases h with h | rfl
  · cases v with
    | str s =>
      simp only [Json.truthy, decide_eq_true_eq] at h
      simp [jsLenZero, Json.isEmptyArr, Json.lengthPropZero, h]
    | arr l => cases l <;> simp [jsLenZero, Json.isEmptyArr, Json.lengthPropZero]
    | obj fields => simp [jsLenZero, Json.isEmptyArr, Json.lengthPropZero]
    | _ => rfl
  · rfl

lemma extractFromJson_wraps_object_length_zero :
    extractFromJson
        (.obj [("messages", .obj [("length", .num 0)]), ("content", .str "hi")]) =
      .arr [.obj [("messages", .obj [("length", .num 0)]), ("content", .str "hi")]] :=
  rfl

lemma sepMsg_wellFormed (c : Conv) : msgWellFormed (sepMsg c) = true := rfl

lemma histMsg_wellFormed (m : ChatMsg) : msgWellFormed (histMsg m) = true := rfl

lemma n8nOutMsg_wellFormed (m : ChatMsg) : msgWellFormed (n8nOutMsg m) = true := rfl

lemma loadAllAux_wellFormed (load : String → Except String (List ChatMsg)) :
    ∀ (convs : List Conv) (acc out : List Json),
      (∀ m ∈ acc, msgWellFormed m = true) →
      loadAllAux load acc convs = .ok out →
      ∀ m ∈ out, msgWellFormed m = true := by
  intro convs
  induction convs with
  | nil =>
    intro acc out hacc h
    injection h with h
    exact h ▸ hacc
  | cons c rest ih =>
    intro acc out hacc h
    rw [loadAllAux] at h
    cases hl : load c.id with
    | error e => rw [hl] at h; exact absurd h (by simp)
    | ok msgs =>
      rw [hl] at h
      refine ih _ _ ?_ h
      intro m hm
      rcases List.mem_append.1 hm with hm1 | hm2
      · rcases List.mem_append.1 hm1 with hm3 | hm4
        · exact hacc m hm3
        · rcases List.mem_ite_nil_right.1 hm4 with ⟨-, hm5⟩
          rcases List.mem_singleton.1 hm5 with rfl
          exact sepMsg_wellFormed c
      · rcases List.mem_map.1 hm2 with ⟨x, -, rfl⟩
        exact histMsg_wellFormed x

lemma loadAllAux_emitAll (load : String → Except String (List ChatMsg))
    (msOf : Conv → List ChatMsg) :
    ∀ (convs : List Conv), (∀ c ∈ convs, load c.id = Except.ok (msOf c)) →
      ∀ acc, loadAllAux load acc convs =
        .ok (acc ++ emitAll msOf (decide (0 < acc.length)) convs) := by
  intro convs
  induction convs with
  | nil => intro _ acc; simp [loadAllAux, emitAll]
  | cons c rest ih =>
    intro hload acc
    have hl := hload c (List.mem_cons_self c rest)
    rw [loadAllAux]
    simp only [hl]
    rw [ih (fun c' hc' => hload c' (List.mem_cons_of_mem c hc'))]
    rw [emitAll]
    congr 1
    by_cases hb : 0 < acc.length
    · have h1 : decide (0 < ((acc ++ [sepMsg c]) ++ List.map histMsg (msOf c)).length) = true := by
        simp
      simp [hb, h1, List.append_assoc]
    · have hae : acc = [] := by
        cases acc with
        | nil => rfl
        | cons x xs => simp at hb
      subst hae
      simp

lemma sepMsg_ne_histMsg (c : Conv) (m : ChatMsg) : sepMsg c ≠ histMsg m := by
  intro h
  injection h with h'
  have hl := congrArg List.length h'
  simp [sepMsg, histMsg] at hl

lemma sepMsg_id_inj {c c' : Conv} (h : sepMsg c = sepMsg c') : c.id = c'.id := by
  injection h with h'
  injection h' with h1 _
  injection h1 with _ h2
  injection h2 with h3
  have hd := congrArg String.data h3
  rw [String.data_append, String.data_append] at hd
  exact String.ext (List.append_cancel_left hd)

lemma sepMsg_mem_emitAll_ids (msOf : Conv → List ChatMsg) :
    ∀ (convs : List Conv) (b : Bool) (c : Conv),
      sepMsg c ∈ emitAll msOf b convs → c.id ∈ convs.map Conv.id := by
  intro convs
  induction convs with
  | nil => intro b c h; simp [emitAll] at h
  | cons c0 rest ih =>
    intro b c h
    rw [emitAll] at h
    rcases List.mem_append.1 h with h1 | h3
    · rcases List.mem_append.1 h1 with h1a | h1b
      · rcases List.mem_ite_nil_right.1 h1a with ⟨-, h1c⟩
        rcases List.mem_singleton.1 h1c with h1d
        simp [sepMsg_id_inj h1d]
      · exact absurd (List.mem_map.1 h1b)
          (by rintro ⟨x, -, hx⟩; exact sepMsg_ne_histMsg c x hx.symm)
    · exact List.mem_cons_of_mem _ (ih _ _ h3)

lemma sepMsg_mem_emitAll_iff (msOf : Conv → List ChatMsg) :
    ∀ (convs : List Conv) (b : Bool) (i : Nat) (c : Conv),
      (convs.map Conv.id).Nodup → convs.get? i = some c →
      (sepMsg c ∈ emitAll msOf b convs ↔
        b = true ∨ ∃ c' ∈ convs.take i, msOf c' ≠ []) := by
  intro convs
  induction convs with
  | nil => intro b i c _ hc; simp at hc
  | cons c0 rest ih =>
    intro b i c hnd hc
    rw [List.map_cons, List.nodup_cons] at hnd
    obtain ⟨hnd0, hndr⟩ := hnd
    cases i with
    | zero =>
      rw [List.get?_cons_zero] at hc
      injection hc with hc
      subst hc
      simp only [List.take_zero]
      rw [emitAll]
      constructor
      · intro h
        rcases List.mem_append.1 h with h1 | h3
        · rcases List.mem_append.1 h1 with h1a | h1b
          · rcases List.mem_ite_nil_right.1 h1a with ⟨hb, -⟩
            exact Or.inl hb
          · exfalso
            rcases List.mem_map.1 h1b with ⟨x, -, hx⟩
            exact sepMsg_ne_histMsg c0 x hx.symm
        · exact absurd (sepMsg_mem_emitAll_ids msOf rest _ _ h3) hnd0
      · rintro (hb | ⟨c', hc', -⟩)
        · subst hb
          exact List.mem_append.2 (Or.inl (List.mem_append.2 (Or.inl (by simp))))
        · simp at hc'
    | succ i =>
      rw [List.get?_cons_succ] at hc
      have hcid : c.id ∈ rest.map Conv.id :=
        List.mem_map_of_mem _ (List.get?_mem hc)
      have hne0 : ¬(sepMsg c = sepMsg c0) :=
        fun he => hnd0 (sepMsg_id_inj he ▸ hcid)
      rw [emitAll, List.take_succ_cons]
      have IH := ih (b || decide (0 < (msOf c0).length)) i c hndr hc
      constructor
      · intro h
        rcases List.mem_append.1 h with h1 | h3
        · rcases List.mem_append.1 h1 with h1a | h1b
          · rcases List.mem_ite_nil_right.1 h1a with ⟨-, h1c⟩
            exact absurd (List.mem_singleton.1 h1c) hne0
          · exfalso
            rcases List.mem_map.1 h1b with ⟨x, -, hx⟩
            exact sepMsg_ne_histMsg c x hx.symm
        · rcases IH.1 h3 with hbd | ⟨c', hc', hne⟩
          · rcases (by simpa using hbd : b = true ∨ 0 < (msOf c0).length) with hb | hd
            · exact Or.inl hb
            · exact Or.inr ⟨c0, List.mem_cons_self _ _,
                by simpa using List.length_pos.1 hd⟩
          · exact Or.inr ⟨c', List.mem_cons_of_mem _ hc', hne⟩
      · intro h
        refine List.mem_append.2 (Or.inr (IH.2 ?_))
        rcases h with hb | ⟨c', hc', hne⟩
        · subst hb
          exact Or.inl (by simp)
        · rcases List.mem_cons.1 hc' with rfl | hc''
          · have hp : 0 < (msOf c').length := List.length_pos.2 hne
            exact Or.inl (by simp [hp])
          · exact Or.inr ⟨c', hc'', hne⟩

/-! ### Claim theorems -/

/-- C1, counterexample to the claim as stated: on the object
`{"messages": null, "data": [{"content": "hi"}]}` the code's `||` chain
skips the present-but-falsy `messages` field and returns the `data`
array, whereas "the first present of the fields" names `messages`
(value `null`).  The two normalizations disagree at this input. -/
theorem c1_normalization_counterexample :
    normalizeWebhookBody (.json (.obj c1CexFields)) "2024-01-01T00:00:00.000Z" ≠
      normalizeSpecOrig (.json (.obj c1CexFields)) "2024-01-01T00:00:00.000Z" := by
  intro h
  have h1 : normalizeWebhookBody (.json (.obj c1CexFields)) "2024-01-01T00:00:00.000Z" =
      Json.arr [.obj [("content", .str "hi")]] := rfl
  have h2 : normalizeSpecOrig (.json (.obj c1CexFields)) "2024-01-01T00:00:00.000Z" =
      Json.null := rfl
  rw [h1, h2] at h
  exact Json.noConfusion h

/-- C1, amended: the retrieve-history normalization follows the claimed
algorithm with "first present" read as "first present *and truthy*"
(null, false, 0 and "" are skipped), and the object-wrapping step firing
when the extracted value has JavaScript length zero — it is the empty
array, or an object whose `length` property equals the number `0` — and
one of `content`/`message`/`text` is truthy; a JSON array is the list
itself, and a non-JSON body with non-empty trimmed text becomes a single
bot message carrying that text. -/
theorem c1_normalization_amended (body : ParsedBody) (ts : String) :
    normalizeWebhookBody body ts = normalizeSpecAmended body ts := by
  cases body with
  | text raw => rfl
  | json j =>
    cases j with
    | obj fields =>
      show extractFromJson (.obj fields) = _
      simp only [extractFromJson, normalizeSpecAmended]
      rw [← firstTruthyField_eq_chain fields messageFieldNames,
        jsLenZero_eq_spec (firstTruthyField_truthy_or_default fields messageFieldNames)]
    | _ => rfl

/-- C2: `validateForm` returns true iff the effective first name, last
name, brand name and email are non-blank after trimming, the effective
email matches the validation regex, a file is selected, its MIME type is
exactly `application/pdf`, and its size is at most `10*1024*1024` bytes;
and the errors record carries a message for exactly the failing
fields. -/
theorem c2_validateForm_characterization (u : Option User) (fd : FormState) :
    (validateFormOk u fd = true ↔
      (jsTrim (effectiveField u User.firstName fd.firstName) ≠ "" ∧
       jsTrim (effectiveField u User.lastName fd.lastName) ≠ "" ∧
       jsTrim (effectiveField u User.brandName fd.brandName) ≠ "" ∧
       jsTrim (effectiveField u User.email fd.email) ≠ "" ∧
       emailRegexTest (effectiveField u User.email fd.email) = true ∧
       ∃ f, fd.file = some f ∧ f.mime = "application/pdf" ∧
         f.size ≤ 10 * 1024 * 1024)) ∧
    ((validateForm u fd).firstName.isSome ↔
       jsTrim (effectiveField u User.firstName fd.firstName) = "") ∧
    ((validateForm u fd).lastName.isSome ↔
       jsTrim (effectiveField u User.lastName fd.lastName) = "") ∧
    ((validateForm u fd).brandName.isSome ↔
       jsTrim (effectiveField u User.brandName fd.brandName) = "") ∧
    ((validateForm u fd).email.isSome ↔
       ¬(jsTrim (effectiveField u User.email fd.email) ≠ "" ∧
         emailRegexTest (effectiveField u User.email fd.email) = true)) ∧
    ((validateForm u fd).file.isSome ↔
       ¬∃ f, fd.file = some f ∧ f.mime = "application/pdf" ∧
         f.size ≤ 10 * 1024 * 1024) := by
  cases hf : fd.file with
  | none =>
    simp only [validateFormOk, formErrorsEmpty, validateForm, hf]
    split_ifs <;> simp_all
  | some f =>
    simp only [validateFormOk, formErrorsEmpty, validateForm, hf]
    split_ifs <;> simp_all

/-- C3: per submission, `handleSubmit` issues at most one request; on a
non-OK response the status becomes `error` and the message embeds the
HTTP status code; on a thrown error the status becomes `error` and the
message wraps the error text.  No second request exists in any path. -/
theorem c3_handleSubmit_single_request_error_surfaced (u : Option User)
    (fd : FormState) (uidFallback : String) (outcome : FetchOutcome)
    (status0 : SubmitStatus) (msg0 : String) (isSub0 : Bool) :
    (handleSubmit u fd uidFallback outcome status0 msg0 isSub0).requests.length ≤ 1 ∧
    (∀ status bodyText statusText,
      outcome = .notOk status bodyText statusText → validateFormOk u fd = true →
      (handleSubmit u fd uidFallback outcome status0 msg0 isSub0).submitStatus = .error ∧
      ∃ pre post,
        (handleSubmit u fd uidFallback outcome status0 msg0 isSub0).submitMessage =
          pre ++ toString status ++ post) ∧
    (∀ e, outcome = .threw e → validateFormOk u fd = true →
      (handleSubmit u fd uidFallback outcome status0 msg0 isSub0).submitStatus = .error ∧
      (handleSubmit u fd uidFallback outcome status0 msg0 isSub0).submitMessage =
        uploadErrorMessage (errText e)) := by
  cases hval : validateFormOk u fd with
  | false =>
    cases hf : fd.file <;>
      simp [handleSubmit, hf, hval]
  | true =>
    have hs := validateFormOk_file_isSome hval
    cases hf : fd.file with
    | none => rw [hf] at hs; simp at hs
    | some f =>
      cases outcome with
      | ok => simp [handleSubmit, hf, hval]
      | notOk status bodyText statusText =>
        refine ⟨by simp [handleSubmit, hf, hval], ?_, by simp [handleSubmit, hf, hval]⟩
        intro s b st hsb _
        injection hsb with h1 h2 h3
        subst h1; subst h2; subst h3
        refine ⟨by simp [handleSubmit, hf, hval],
          "❌ Failed to upload document: " ++ "Upload failed (",
          "): " ++ (jsOrS bodyText statusText ++ ". Please try again."), ?_⟩
        simp only [handleSubmit, hf, hval, uploadErrorMessage, uploadFailedMessage,
          String.append_assoc]
      | threw e => simp [handleSubmit, hf, hval]

/-- Witness for C3 at a concrete failing submission (HTTP 500). -/
theorem c3_witness :
    validateFormOk
        (some { id := "u1", firstName := "Ada", lastName := "Lovelace",
                brandName := "Brand", email := "ada@example.com" })
        { firstName := "", lastName := "", brandName := "", email := "",
          file := some { name := "f.pdf", mime := "application/pdf", size := 100 } } = true ∧
    ((handleSubmit
        (some { id := "u1", firstName := "Ada", lastName := "Lovelace",
                brandName := "Brand", email := "ada@example.com" })
        { firstName := "", lastName := "", brandName := "", email := "",
          file := some { name := "f.pdf", mime := "application/pdf", size := 100 } }
        "fb" (.notOk 500 "oops" "Internal Server Error") .idle "" false).submitStatus = .error ∧
      ∃ pre post,
        (handleSubmit
          (some { id := "u1", firstName := "Ada", lastName := "Lovelace",
                  brandName := "Brand", email := "ada@example.com" })
          { firstName := "", lastName := "", brandName := "", email := "",
            file := some { name := "f.pdf", mime := "application/pdf", size := 100 } }
          "fb" (.notOk 500 "oops" "Internal Server Error") .idle "" false).submitMessage =
          pre ++ toString 500 ++ post) :=
  ⟨by decide,
   (c3_handleSubmit_single_request_error_surfaced _ _ _ _ _ _ _).2.1
     500 "oops" "Internal Server Error" rfl (by decide)⟩

/-- C4: when the request fails (non-OK or thrown), `formData` is left
unchanged; on success `formData` is reset to the empty form, the status
becomes `success`, a 3000 ms timeout is scheduled, and its callback
closes the modal and resets the status and message. -/
theorem c4_handleSubmit_atomic (u : Option User) (fd : FormState)
    (uidFallback : String) (outcome : FetchOutcome) (status0 : SubmitStatus)
    (msg0 : String) (isSub0 : Bool) (hv : validateFormOk u fd = true) :
    ((∀ status bodyText statusText, outcome = .notOk status bodyText statusText →
        (handleSubmit u fd uidFallback outcome status0 msg0 isSub0).formData = fd) ∧
     (∀ e, outcome = .threw e →
        (handleSubmit u fd uidFallback outcome status0 msg0 isSub0).formData = fd) ∧
     (outcome = .ok →
        (handleSubmit u fd uidFallback outcome status0 msg0 isSub0).formData = emptyFormState ∧
        (handleSubmit u fd uidFallback outcome status0 msg0 isSub0).submitStatus = .success ∧
        (handleSubmit u fd uidFallback outcome status0 msg0 isSub0).submitMessage =
          uploadSuccessMessage ∧
        (handleSubmit u fd uidFallback outcome status0 msg0 isSub0).timeoutMs = some 3000)) ∧
    (∀ s : ModalState, uploadSuccessTimeout s =
      { showUploadForm := false, submitStatus := .idle, submitMessage := "" }) := by
  have hs := validateFormOk_file_isSome hv
  cases hf : fd.file with
  | none => rw [hf] at hs; simp at hs
  | some f =>
    cases outcome <;>
      simp [handleSubmit, hf, hv, uploadSuccessTimeout]

/-- Witness for C4 at a concrete successful submission. -/
theorem c4_witness :
    validateFormOk
        (some { id := "u1", firstName := "Ada", lastName := "Lovelace",
                brandName := "Brand", email := "ada@example.com" })
        { firstName := "", lastName := "", brandName := "", email := "",
          file := some { name := "f.pdf", mime := "application/pdf", size := 100 } } = true ∧
    (handleSubmit
        (some { id := "u1", firstName := "Ada", lastName := "Lovelace",
                brandName := "Brand", email := "ada@example.com" })
        { firstName := "", lastName := "", brandName := "", email := "",
          file := some { name := "f.pdf", mime := "application/pdf", size := 100 } }
        "fb" .ok .idle "" false).formData = emptyFormState ∧
    uploadSuccessTimeout ⟨true, .success, "x"⟩ = ⟨false, .idle, ""⟩ := by
  have h := c4_handleSubmit_atomic
    (some { id := "u1", firstName := "Ada", lastName := "Lovelace",
            brandName := "Brand", email := "ada@example.com" })
    { firstName := "", lastName := "", brandName := "", email := "",
      file := some { name := "f.pdf", mime := "application/pdf", size := 100 } }
    "fb" .ok .idle "" false (by decide)
  exact ⟨by decide, (h.1.2.2 rfl).1, h.2 _⟩

/-- C5: both history loaders return `[]` without issuing any request
when there is no user or the session is unauthenticated, and return `[]`
(instead of propagating) when an awaited history call throws. -/
theorem c5_history_loaders_guard_and_catch (u : Option User) (isAuth : Bool)
    (convs : List Conv) (load : String → Except String (List ChatMsg))
    (res : Except String (List ChatMsg)) :
    ((u = none ∨ isAuth = false) →
      handleLoadAllHistory u isAuth convs load = [] ∧
      handleLoadAllHistoryCalls u isAuth convs load = 0 ∧
      handleLoadN8NHistory u isAuth res = [] ∧
      handleLoadN8NHistoryCalls u isAuth = 0) ∧
    (∀ e, loadAllAux load [] convs = .error e →
      handleLoadAllHistory u isAuth convs load = []) ∧
    (∀ e, res = .error e → handleLoadN8NHistory u isAuth res = []) := by
  refine ⟨?_, ?_, ?_⟩
  · rintro (rfl | rfl) <;>
      simp [handleLoadAllHistory, handleLoadAllHistoryCalls, handleLoadN8NHistory,
        handleLoadN8NHistoryCalls]
  · intro e he
    cases hg : (u.isNone || !isAuth) <;>
      simp [handleLoadAllHistory, hg, he]
  · intro e he
    subst he
    cases hg : (u.isNone || !isAuth) <;>
      simp [handleLoadN8NHistory, hg]

/-- Witness for C5: a logged-out run returns `[]` with zero requests. -/
theorem c5_witness :
    handleLoadAllHistory none true [] (fun _ => Except.ok []) = [] ∧
    handleLoadAllHistoryCalls none true [] (fun _ => Except.ok []) = 0 ∧
    handleLoadN8NHistory none true (Except.ok []) = [] ∧
    handleLoadN8NHistoryCalls none true = 0 :=
  (c5_history_loaders_guard_and_catch none true [] (fun _ => Except.ok [])
    (Except.ok [])).1 (Or.inl rfl)

/-- C6, counterexample to the claim as stated: a non-JSON webhook
response body `"hello"` is delivered to the chat component as a single
message with content, sender and timestamp but *no* identifier field. -/
theorem c6_message_shape_counterexample :
    normalizeWebhookBody (.text "hello") "2024-01-01T00:00:00.000Z" =
      Json.arr [Json.obj [("content", Json.str "hello"), ("sender", Json.str "bot"),
        ("timestamp", Json.str "2024-01-01T00:00:00.000Z")]] ∧
    Json.hasField
        (Json.obj [("content", Json.str "hello"), ("sender", Json.str "bot"),
          ("timestamp", Json.str "2024-01-01T00:00:00.000Z")]) "id" = false :=
  ⟨rfl, rfl⟩

/-- C6, amended: every message returned by `handleLoadAllHistory` and by
`handleLoadN8NHistory` carries an identifier, text content, a sender tag
and a timestamp (attachments optional); the retrieve-history webhook
event, for a non-JSON body with non-empty trimmed text and for the
non-OK and thrown-error branches, delivers a single message carrying
content, sender and timestamp but no identifier (JSON-derived webhook
payloads are passed through unmodified with no shape guarantee). -/
theorem c6_message_shape_amended :
    (∀ (u : Option User) (isAuth : Bool) (convs : List Conv)
        (load : String → Except String (List ChatMsg)),
      ∀ m ∈ handleLoadAllHistory u isAuth convs load, msgWellFormed m = true) ∧
    (∀ (u : Option User) (isAuth : Bool) (res : Except String (List ChatMsg)),
      ∀ m ∈ handleLoadN8NHistory u isAuth res, msgWellFormed m = true) ∧
    (∀ raw ts, jsTrim raw ≠ "" →
      normalizeWebhookBody (.text raw) ts =
        .arr [.obj [("content", .str (jsTrim raw)), ("sender", .str "bot"),
                    ("timestamp", .str ts)]] ∧
      ∀ fields, Json.obj fields =
          Json.obj [("content", .str (jsTrim raw)), ("sender", .str "bot"),
                    ("timestamp", .str ts)] →
        Json.hasField (.obj fields) "content" = true ∧
        Json.hasField (.obj fields) "sender" = true ∧
        Json.hasField (.obj fields) "timestamp" = true ∧
        Json.hasField (.obj fields) "id" = false) ∧
    (∀ (u : User) (now respNow : JsDate) (status : Nat) (statusText : String),
      ∃ fields, (retrieveHistoryClick u now respNow (.notOk status statusText)).2 =
          .arr [.obj fields] ∧
        Json.hasField (.obj fields) "content" = true ∧
        Json.hasField (.obj fields) "sender" = true ∧
        Json.hasField (.obj fields) "timestamp" = true ∧
        Json.hasField (.obj fields) "id" = false) ∧
    (∀ (u : User) (now respNow : JsDate) (e : Option String),
      ∃ fields, (retrieveHistoryClick u now respNow (.threw e)).2 =
          .arr [.obj fields] ∧
        Json.hasField (.obj fields) "content" = true ∧
        Json.hasField (.obj fields) "sender" = true ∧
        Json.hasField (.obj fields) "timestamp" = true ∧
        Json.hasField (.obj fields) "id" = false) := by
  refine ⟨?_, ?_, ?_, ?_, ?_⟩
  · intro u isAuth convs load m hm
    rw [handleLoadAllHistory] at hm
    split at hm
    · simp at hm
    · split at hm
      · next out hout => exact loadAllAux_wellFormed load convs [] out (by simp) hout m hm
      · simp at hm
  · intro u isAuth res m hm
    unfold handleLoadN8NHistory at hm
    split at hm
    · simp at hm
    · split at hm
      · rcases List.mem_map.1 hm with ⟨x, -, rfl⟩
        exact n8nOutMsg_wellFormed x
      · simp at hm
  · intro raw ts h
    refine ⟨by simp [normalizeWebhookBody, h], ?_⟩
    intro fields hf
    injection hf with hf
    subst hf
    exact ⟨rfl, rfl, rfl, rfl⟩
  · intro u now respNow status statusText
    exact ⟨_, rfl, rfl, rfl, rfl, rfl⟩
  · intro u now respNow e
    exact ⟨_, rfl, rfl, rfl, rfl, rfl⟩

/-- Witness for C6 (amended), at a concrete N8N-history run and a
concrete non-JSON webhook body. -/
theorem c6_witness :
    msgWellFormed
      (n8nOutMsg { id := "m1", content := "hi", sender := "bot",
                   timestamp := { repr := "2024-01-01" }, attachments := none }) = true ∧
    (jsTrim " hi " ≠ "" ∧
      normalizeWebhookBody (.text " hi ") "T" =
        .arr [.obj [("content", .str (jsTrim " hi ")), ("sender", .str "bot"),
                    ("timestamp", .str "T")]]) := by
  refine ⟨?_, by decide, ?_⟩
  · exact c6_message_shape_amended.2.1
      (some { id := "u1", firstName := "Ada", lastName := "Lovelace",
              brandName := "Brand", email := "ada@example.com" }) true
      (Except.ok [{ id := "m1", content := "hi", sender := "bot",
                    timestamp := { repr := "2024-01-01" }, attachments := none }])
      _ (by simp [handleLoadN8NHistory])
  · exact (c6_message_shape_amended.2.2.1 " hi " "T" (by decide)).1

/-- C7: every request the component issues goes to a fixed endpoint: a
retrieve-history click issues exactly one POST to the fixed n8n webhook
URL with a JSON body holding the user's id, email and the current
timestamp, and every upload request is a POST of the form entries to the
fixed document-upload endpoint (exactly one when validation passes). -/
theorem c7_fixed_endpoints (u : User) (now respNow : JsDate)
    (outcome : RetrieveOutcome) (ufd : Option User) (fd : FormState)
    (uidFallback : String) (fo : FetchOutcome) (status0 : SubmitStatus)
    (msg0 : String) (isSub0 : Bool) :
    retrieveHistoryUrl =
      "https://iamfashion.app.n8n.cloud/webhook/511abe15-0332-4bf8-9ed7-bc718465191c" ∧
    uploadUrl = "/api/webhook-test/document-upload" ∧
    (retrieveHistoryClick u now respNow outcome).1 = [retrieveHistoryRequest u now] ∧
    (retrieveHistoryRequest u now).url = retrieveHistoryUrl ∧
    (retrieveHistoryRequest u now).method = "POST" ∧
    (retrieveHistoryRequest u now).body =
      .jsonBody (.obj [("userId", .str u.id), ("email", .str u.email),
                       ("timestamp", .str now.toISOString)]) ∧
    (∀ r ∈ (handleSubmit ufd fd uidFallback fo status0 msg0 isSub0).requests,
      r.url = uploadUrl ∧ r.method = "POST" ∧
      ∃ f, fd.file = some f ∧ r.body = .formBody (uploadFormEntries ufd fd f)) ∧
    (validateFormOk ufd fd = true →
      (handleSubmit ufd fd uidFallback fo status0 msg0 isSub0).requests.length = 1) := by
  refine ⟨rfl, rfl, rfl, rfl, rfl, rfl, ?_, ?_⟩
  · intro r hr
    cases hval : validateFormOk ufd fd with
    | false =>
      cases hf : fd.file <;> simp [handleSubmit, hf, hval] at hr
    | true =>
      have hs := validateFormOk_file_isSome hval
      cases hf : fd.file with
      | none => rw [hf] at hs; simp at hs
      | some f =>
        cases fo <;> simp [handleSubmit, hf, hval] at hr <;>
          exact hr ▸ ⟨rfl, rfl, f, rfl, rfl⟩
  · intro hval
    have hs := validateFormOk_file_isSome hval
    cases hf : fd.file with
    | none => rw [hf] at hs; simp at hs
    | some f => cases fo <;> simp [handleSubmit, hf, hval]

/-- Witness for C7 at a concrete validated submission. -/
theorem c7_witness :
    validateFormOk
        (some { id := "u1", firstName := "Ada", lastName := "Lovelace",
                brandName := "Brand", email := "ada@example.com" })
        { firstName := "", lastName := "", brandName := "", email := "",
          file := some { name := "f.pdf", mime := "application/pdf", size := 100 } } = true ∧
    (handleSubmit
        (some { id := "u1", firstName := "Ada", lastName := "Lovelace",
                brandName := "Brand", email := "ada@example.com" })
        { firstName := "", lastName := "", brandName := "", email := "",
          file := some { name := "f.pdf", mime := "application/pdf", size := 100 } }
        "fb" .ok .idle "" false).requests.length = 1 :=
  ⟨by decide,
   (c7_fixed_endpoints
      { id := "u1", firstName := "Ada", lastName := "Lovelace",
        brandName := "Brand", email := "ada@example.com" }
      { repr := "T1" } { repr := "T2" } (.threw none)
      (some { id := "u1", firstName := "Ada", lastName := "Lovelace",
              brandName := "Brand", email := "ada@example.com" })
      { firstName := "", lastName := "", brandName := "", email := "",
        file := some { name := "f.pdf", mime := "application/pdf", size := 100 } }
      "fb" .ok .idle "" false).2.2.2.2.2.2.2 (by decide)⟩

/-- C8: in the list built by `handleLoadAllHistory` (all loads
succeeding, conversation ids distinct), the separator of the
conversation at index `i` appears exactly when some earlier conversation
has a non-empty message list — equivalently, exactly when the
accumulated list is non-empty when that conversation is processed.  In
particular the first conversation never gets a separator, and neither
does a conversation preceded only by empty conversations. -/
theorem c8_separator_iff (usr : User) (convs : List Conv)
    (load : String → Except String (List ChatMsg)) (msOf : Conv → List ChatMsg)
    (hload : ∀ c ∈ convs, load c.id = Except.ok (msOf c))
    (hnd : (convs.map Conv.id).Nodup) (i : Nat) (c : Conv)
    (hc : convs.get? i = some c) :
    sepMsg c ∈ handleLoadAllHistory (some usr) true convs load ↔
      ∃ c' ∈ convs.take i, msOf c' ≠ [] := by
  have hrun : handleLoadAllHistory (some usr) true convs load =
      emitAll msOf false convs := by
    unfold handleLoadAllHistory
    rw [loadAllAux_emitAll load msOf convs hload []]
    simp
  rw [hrun]
  simpa using sepMsg_mem_emitAll_iff msOf convs false i c hnd hc

/-- Witness for C8: three conversations `a` (empty), `b` (one message),
`c` (empty); the separator of `c` is present because `b` contributed. -/
theorem c8_witness :
    (∀ cv ∈ [(⟨"a", "First", ⟨"d1"⟩, ⟨"d1"⟩, 0⟩ : Conv),
             ⟨"b", "Second", ⟨"d2"⟩, ⟨"d2"⟩, 1⟩, ⟨"c", "Third", ⟨"d3"⟩, ⟨"d3"⟩, 0⟩],
      ((fun s => if s = "b" then
          Except.ok [(⟨"m1", "hi", "user", ⟨"d2"⟩, none⟩ : ChatMsg)]
        else Except.ok []) : String → Except String (List ChatMsg)) cv.id =
        Except.ok (if cv.id = "b" then
          [(⟨"m1", "hi", "user", ⟨"d2"⟩, none⟩ : ChatMsg)] else [])) ∧
    (([(⟨"a", "First", ⟨"d1"⟩, ⟨"d1"⟩, 0⟩ : Conv),
       ⟨"b", "Second", ⟨"d2"⟩, ⟨"d2"⟩, 1⟩,
       ⟨"c", "Third", ⟨"d3"⟩, ⟨"d3"⟩, 0⟩].map Conv.id).Nodup) ∧
    (sepMsg ⟨"c", "Third", ⟨"d3"⟩, ⟨"d3"⟩, 0⟩ ∈
        handleLoadAllHistory
          (some ⟨"u1", "Ada", "Lovelace", "Brand", "ada@example.com"⟩) true
          [⟨"a", "First", ⟨"d1"⟩, ⟨"d1"⟩, 0⟩, ⟨"b", "Second", ⟨"d2"⟩, ⟨"d2"⟩, 1⟩,
           ⟨"c", "Third", ⟨"d3"⟩, ⟨"d3"⟩, 0⟩]
          (fun s => if s = "b" then
              Except.ok [(⟨"m1", "hi", "user", ⟨"d2"⟩, none⟩ : ChatMsg)]
            else Except.ok []) ↔
      ∃ c' ∈ ([(⟨"a", "First", ⟨"d1"⟩, ⟨"d1"⟩, 0⟩ : Conv),
               ⟨"b", "Second", ⟨"d2"⟩, ⟨"d2"⟩, 1⟩,
               ⟨"c", "Third", ⟨"d3"⟩, ⟨"d3"⟩, 0⟩].take 2),
        (if c'.id = "b" then
          [(⟨"m1", "hi", "user", ⟨"d2"⟩, none⟩ : ChatMsg)] else []) ≠ []) := by
  refine ⟨?_, ?_, ?_⟩
  · intro cv hcv
    fin_cases hcv <;> rfl
  · decide
  · exact c8_separator_iff ⟨"u1", "Ada", "Lovelace", "Brand", "ada@example.com"⟩
      _ _ _ (by intro cv hcv; fin_cases hcv <;> rfl) (by decide) 2 _ rfl

/-- C9: the upload request body's `userId` entry is the effective email
address (the user's email when present and non-empty, else the form
email), while the debug log reports `user?.id || userId`; for a user
whose id and email are distinct and non-empty the two disagree. -/
theorem c9_upload_userId_is_email (u : Option User) (fd : FormState)
    (uidFallback : String) (outcome : FetchOutcome) (status0 : SubmitStatus)
    (msg0 : String) (isSub0 : Bool) (hv : validateFormOk u fd = true) :
    ∃ f, fd.file = some f ∧
      (handleSubmit u fd uidFallback outcome status0 msg0 isSub0).requests =
        [{ url := uploadUrl, method := "POST"
           body := .formBody (uploadFormEntries u fd f) }] ∧
      lookupEntry (uploadFormEntries u fd f) "userId" =
        some (.str (effectiveField u User.email fd.email)) ∧
      (handleSubmit u fd uidFallback outcome status0 msg0 isSub0).log =
        some (uploadDebugLog u fd uidFallback f) ∧
      (∀ usr, u = some usr →
        (uploadDebugLog u fd uidFallback f).userId = jsOrS usr.id uidFallback) ∧
      (u = none → (uploadDebugLog u fd uidFallback f).userId = uidFallback) ∧
      (∀ usr, u = some usr → usr.email ≠ "" → usr.id ≠ "" → usr.email ≠ usr.id →
        lookupEntry (uploadFormEntries u fd f) "userId" ≠
          some (.str ((uploadDebugLog u fd uidFallback f).userId))) := by
  have hs := validateFormOk_file_isSome hv
  cases hf : fd.file with
  | none => rw [hf] at hs; simp at hs
  | some f =>
    refine ⟨f, rfl, ?_, ?_, ?_, ?_, ?_, ?_⟩
    · cases outcome <;> simp [handleSubmit, hf, hv]
    · simp [lookupEntry, uploadFormEntries]
    · cases outcome <;> simp [handleSubmit, hf, hv]
    · intro usr hu; subst hu; rfl
    · intro hu; subst hu; rfl
    · intro usr hu he hi hne
      subst hu
      simp [lookupEntry, uploadFormEntries, uploadDebugLog, effectiveField, jsOrS,
        he, hi]
      exact hne

/-- Witness for C9 at a concrete validated submission with distinct id
and email. -/
theorem c9_witness :
    validateFormOk (some ⟨"u1", "Ada", "Lovelace", "Brand", "ada@example.com"⟩)
        ⟨"", "", "", "", some ⟨"f.pdf", "application/pdf", 100⟩⟩ = true ∧
    ∃ f, (⟨"", "", "", "", some ⟨"f.pdf", "application/pdf", 100⟩⟩ : FormState).file =
        some f ∧
      lookupEntry
          (uploadFormEntries (some ⟨"u1", "Ada", "Lovelace", "Brand", "ada@example.com"⟩)
            ⟨"", "", "", "", some ⟨"f.pdf", "application/pdf", 100⟩⟩ f) "userId" =
        some (.str (effectiveField
          (some ⟨"u1", "Ada", "Lovelace", "Brand", "ada@example.com"⟩)
          User.email "")) := by
  refine ⟨by decide, ?_⟩
  obtain ⟨f, hf, -, hlook, -⟩ := c9_upload_userId_is_email
    (some ⟨"u1", "Ada", "Lovelace", "Brand", "ada@example.com"⟩)
    ⟨"", "", "", "", some ⟨"f.pdf", "application/pdf", 100⟩⟩
    "fb" .ok .idle "" false (by decide)
  exact ⟨f, hf, hlook⟩

/-- C10: for a logged-in user whose profile fields are non-blank and
whose email matches the validation regex, `validateForm` ignores the
form's text fields entirely: its errors record has no text-field entry,
its result depends only on the selected file, and it succeeds exactly
when the file is a PDF of at most 10 MB. -/
theorem c10_logged_in_user_file_only (usr : User)
    (h1 : jsTrim usr.firstName ≠ "") (h2 : jsTrim usr.lastName ≠ "")
    (h3 : jsTrim usr.brandName ≠ "") (h4 : emailRegexTest usr.email = true) :
    ∀ fd fd' : FormState,
      (fd.file = fd'.file → validateForm (some usr) fd = validateForm (some usr) fd') ∧
      ((validateForm (some usr) fd).firstName = none ∧
       (validateForm (some usr) fd).lastName = none ∧
       (validateForm (some usr) fd).brandName = none ∧
       (validateForm (some usr) fd).email = none) ∧
      (validateFormOk (some usr) fd = true ↔
        ∃ f, fd.file = some f ∧ f.mime = "application/pdf" ∧
          f.size ≤ 10 * 1024 * 1024) := by
  have e1 : ∀ v, effectiveField (some usr) User.firstName v = usr.firstName :=
    fun _ => effectiveField_of_user (ne_empty_of_jsTrim_ne_empty h1)
  have e2 : ∀ v, effectiveField (some usr) User.lastName v = usr.lastName :=
    fun _ => effectiveField_of_user (ne_empty_of_jsTrim_ne_empty h2)
  have e3 : ∀ v, effectiveField (some usr) User.brandName v = usr.brandName :=
    fun _ => effectiveField_of_user (ne_empty_of_jsTrim_ne_empty h3)
  have e4 : ∀ v, effectiveField (some usr) User.email v = usr.email :=
    fun _ => effectiveField_of_user (emailRegexTest_ne_empty h4)
  have etrim : jsTrim usr.email ≠ "" := emailRegexTest_jsTrim_ne h4
  have key : ∀ fd : FormState, validateForm (some usr) fd =
      { firstName := none, lastName := none, brandName := none, email := none
        file :=
          match fd.file with
          | none => some "Please select a PDF file"
          | some f =>
            if f.mime ≠ "application/pdf" then some "Only PDF files are allowed"
            else if f.size > 10 * 1024 * 1024 then some "File size must be less than 10MB"
            else none } := by
    intro fd
    simp [validateForm, e1, e2, e3, e4, h1, h2, h3, h4, etrim]
  intro fd fd'
  refine ⟨fun hff => ?_, by rw [key]; exact ⟨rfl, rfl, rfl, rfl⟩, ?_⟩
  · rw [key, key, hff]
  · rw [validateFormOk, key]
    cases hf : fd.file with
    | none => simp [formErrorsEmpty, hf]
    | some f =>
      simp [formErrorsEmpty, hf]
      split_ifs <;> simp_all

/-- Witness for C10 at a concrete profile user and two form states
differing only in text fields. -/
theorem c10_witness :
    (jsTrim "Ada" ≠ "" ∧ jsTrim "Lovelace" ≠ "" ∧ jsTrim "Brand" ≠ "" ∧
      emailRegexTest "ada@example.com" = true) ∧
    validateForm
        (some { id := "u1", firstName := "Ada", lastName := "Lovelace",
                brandName := "Brand", email := "ada@example.com" })
        { firstName := "x", lastName := "y", brandName := "z", email := "w",
          file := none } =
      validateForm
        (some { id := "u1", firstName := "Ada", lastName := "Lovelace",
                brandName := "Brand", email := "ada@example.com" })
        { firstName := "", lastName := "", brandName := "", email := "",
          file := none } :=
  ⟨⟨by decide, by decide, by decide, by decide⟩,
   ((c10_logged_in_user_file_only
      { id := "u1", firstName := "Ada", lastName := "Lovelace",
        brandName := "Brand", email := "ada@example.com" }
      (by decide) (by decide) (by decide) (by decide)
      { firstName := "x", lastName := "y", brandName := "z", email := "w",
        file := none }
      { firstName := "", lastName := "", brandName := "", email := "",
        file := none }).1 rfl)⟩

end BrandChallenger
